import Mathlib

/-!
# Verification of the vi-mode editing core of `readline`

Shallow embedding of the vi widgets (`vi.go`) of the readline library.
The edit buffer is a `List Char`, the cursor and mark are `Int` (the Go
code uses `int`, with `-1` the "unset" sentinel for the mark).  Widgets
are pure state transformers `Instance → Instance`; widgets whose Go body
can index the buffer out of bounds (a Go runtime panic) return
`Option Instance`, with `none` modelling the panic.  Widgets that read a
single argument key from the key source take it as an `Option Char`
parameter, `none` modelling the escape indicator.

Helpers that live outside the provided source (selection tracker,
mode manager entry/exit, iteration parsing, motion resolver) are
modelled from the specification; each such definition carries a doc
comment starting with "Modelled from the spec:".
-/

/-- Main keymap mode of the session: insert (`viins`) or command (`vicmd`). -/
inductive MainMode where
  | viins : MainMode
  | vicmd : MainMode
deriving DecidableEq, Repr

/-- Local overlay mode: none (the empty string in the Go code), visual, or
operator-pending (`viopp`). -/
inductive LocalMode where
  | noLocal : LocalMode
  | visual : LocalMode
  | viopp : LocalMode
deriving DecidableEq, Repr

/-- The editing-session state: the fields of the Go `Instance` struct that the
vi widgets read and mutate.  `registers` models the default register's
content; `pendingOperator` the operator name recorded by
`enterVioppMode`; `oppSavedLocal` the local mode saved on entering
operator-pending mode so that cancellation can revert to it (spec §4.1). -/
structure Instance where
  line : List Char
  pos : Int
  main : MainMode
  local_ : LocalMode
  visualLine : Bool
  mark : Int
  activeRegion : Bool
  viIteration : String
  viUndoSkipAppend : Bool
  registers : List Char
  pendingOperator : String
  oppSavedLocal : LocalMode
deriving DecidableEq, Repr

/-- Go indexing `l[i]`: `some` the element, `none` when the access panics. -/
def idxGet? (l : List Char) (i : Int) : Option Char :=
  if i < 0 then none else l.get? i.toNat

/-- The half-open slice `l[b:e]` of the buffer, as used by the selection
operators (total; callers guard the Go panic conditions themselves). -/
def sliceRange (l : List Char) (b e : Int) : List Char :=
  (l.drop b.toNat).take (e - b).toNat

/-- Modelled from the spec: render/cursor hook (§6); it touches only the
screen, never the editing state. -/
def updateCursor (rl : Instance) : Instance := rl

/-- Modelled from the spec: render hook (§6), no effect on the editing state. -/
def updateHelpers (rl : Instance) : Instance := rl

/-- Modelled from the spec: display-helper reset (§6), no effect on the
editing state. -/
def resetHelpers (rl : Instance) : Instance := rl

/-- Modelled from the spec: vim status-line refresh (§6), no effect on the
editing state. -/
def refreshVimStatus (rl : Instance) : Instance := rl

/-- Modelled from the spec: the iteration accumulator (§4.2) appends digit
strings; an empty argument resets the accumulator (the widgets call
`addIteration ""` to clear it). -/
def addIteration (rl : Instance) (i : String) : Instance :=
  if i = "" then { rl with viIteration := "" }
  else { rl with viIteration := rl.viIteration ++ i }

/-- Modelled from the spec: `strconv.Atoi` on the accumulated digit string;
a non-numeric or empty string yields 0 (the caller clamps to 1). -/
def strToInt (s : String) : Int :=
  if s.data ≠ [] ∧ s.data.all Char.isDigit then
    ((s.data.foldl (fun acc c => acc * 10 + (c.toNat - 48)) 0 : Nat) : Int)
  else 0

/-- Modelled from the spec: `iterations()` (§4.2) parses the accumulated
string to a positive integer, absence yielding the default of 1, and
consumes (resets) the accumulator. -/
def getViIterations (rl : Instance) : Int × Instance :=
  let i := strToInt rl.viIteration
  (if i < 1 then 1 else i, { rl with viIteration := "" })

/-- Modelled from the spec: the register store's `save` (§4.5): writes the
content to the default register. -/
def saveBufToRegister (rl : Instance) (buf : List Char) : Instance :=
  { rl with registers := buf }

/-- Modelled from the spec: `getSelection()` (§4.6) returns
`(begin, end, cursorRestorePos)` with `begin = min(mark,pos)` and
`end = max(mark,pos) + 1` (end exclusive). -/
def getSelection (rl : Instance) : Int × Int × Int :=
  (min rl.mark rl.pos, max rl.mark rl.pos + 1, min rl.mark rl.pos)

/-- Modelled from the spec: `resetSelection()` (§4.6) clears the mark to the
unset sentinel and the active-region flag. -/
def resetSelection (rl : Instance) : Instance :=
  { rl with mark := -1, activeRegion := false }

/-- Modelled from the spec: the yank operator's effect (§4.4): copies the
selected range into the register, leaving the buffer untouched. -/
def yankSelection (rl : Instance) : Instance :=
  saveBufToRegister rl (sliceRange rl.line (getSelection rl).1 (getSelection rl).2.1)

/-- Modelled from the spec: the delete operator's effect (§4.4): copies the
removed text into the register, removes `[b,e)` from the buffer, and the
cursor becomes `b`, clamped to `len-1` if now past the end. -/
def deleteSelection (rl : Instance) : Instance :=
  let b := (getSelection rl).1
  let e := (getSelection rl).2.1
  let cut := sliceRange rl.line b e
  let newLine := rl.line.take b.toNat ++ rl.line.drop e.toNat
  let np := if (newLine.length : Int) - 1 < b then (newLine.length : Int) - 1 else b
  { saveBufToRegister rl cut with line := newLine, pos := if np < 0 then 0 else np }

/-- Modelled from the spec: `enterOperatorPending` (§4.1): sets the local
mode to operator-pending, records the pending operator, and remembers the
local mode active before entry so cancellation can revert to it. -/
def enterVioppMode (rl : Instance) (op : String) : Instance :=
  { rl with oppSavedLocal := rl.local_, local_ := .viopp, pendingOperator := op }

/-- Modelled from the spec: `exitOperatorPending` (§4.1): exits
operator-pending mode, reverting the local mode to whatever it was before
entry and dropping the pending operator. -/
def exitVioppMode (rl : Instance) : Instance :=
  { rl with local_ := rl.oppSavedLocal, pendingOperator := "" }

/-- Modelled from the spec: the dispatcher's escape handling while a
deferred operator awaits its motion (§4.1 cancellation, §3 lifecycle):
operator-pending mode is exited, the mode reverts, and mark and
active-region flag return to their neutral state. -/
def cancelPendingOperator (rl : Instance) : Instance :=
  { rl with local_ := rl.oppSavedLocal, pendingOperator := "",
            mark := -1, activeRegion := false }

/-- Modelled from the spec: `enterVisual` (§4.1): entering the variant
already active collapses the selection and exits back to command mode;
from the other variant it is an actual mode change; otherwise it starts a
character-wise region anchored at the cursor. -/
def enterVisualMode (rl : Instance) : Instance :=
  if rl.local_ = .visual ∧ rl.visualLine = false then
    { rl with local_ := .noLocal, mark := -1, activeRegion := false }
  else if rl.local_ = .visual then
    { rl with visualLine := false }
  else
    { rl with local_ := .visual, visualLine := false, mark := rl.pos, activeRegion := true }

/-- Modelled from the spec: `enterVisualLine` (§4.1), the line-wise variant
of `enterVisualMode` with the same toggle behaviour. -/
def enterVisualLineMode (rl : Instance) : Instance :=
  if rl.local_ = .visual ∧ rl.visualLine = true then
    { rl with local_ := .noLocal, mark := -1, activeRegion := false }
  else if rl.local_ = .visual then
    { rl with visualLine := true }
  else
    { rl with local_ := .visual, visualLine := true, mark := rl.pos, activeRegion := true }

/-- Modelled from the spec: `beginningOfLine` moves the cursor to column 0
(the motion half of the overloaded digit `0`, §4.2). -/
def beginningOfLine (rl : Instance) : Instance :=
  { rl with pos := 0 }

/-- Modelled from the spec: applies a signed cursor delta and clamps the
result to the buffer bounds `0 ≤ pos ≤ len` (§4.3, §3). -/
def moveCursorByAdjust (rl : Instance) (adjust : Int) : Instance :=
  let p := rl.pos + adjust
  let p := if p < 0 then 0 else p
  { rl with pos := if (rl.line.length : Int) < p then (rl.line.length : Int) else p }

/-- `vi-insert-mode` (vi.go): enter insert mode, clearing the local mode,
the mark, the region flags and the iteration accumulator. -/
def viInsertMode (rl : Instance) : Instance :=
  updateCursor { rl with local_ := .noLocal, main := .viins, viIteration := "",
                         mark := -1, activeRegion := false, visualLine := false }

/-- `vi-cmd-mode` (vi.go): enter command mode, resetting iteration, mark and
region, stepping the cursor back one place when leaving insert mode on a
non-empty buffer with `pos > 0`. -/
def viCommandMode (rl : Instance) : Instance :=
  let rl := { rl with viIteration := "", viUndoSkipAppend := true,
                      mark := -1, activeRegion := false, visualLine := false }
  let rl := if rl.main = .viins ∧ 0 < rl.line.length ∧ 0 < rl.pos then
              { rl with pos := rl.pos - 1 }
            else rl
  refreshVimStatus (updateCursor { rl with local_ := .noLocal, main := .vicmd })

/-- `visual-mode` (vi.go): reset the iteration accumulator, flag undo-skip,
and delegate to the mode manager's `enterVisualMode`. -/
def viVisualMode (rl : Instance) : Instance :=
  enterVisualMode (addIteration { rl with viUndoSkipAppend := true } "")

/-- `visual-line-mode` (vi.go): reset the iteration accumulator, flag
undo-skip, and delegate to the mode manager's `enterVisualLineMode`. -/
def viVisualLineMode (rl : Instance) : Instance :=
  enterVisualLineMode (addIteration { rl with viUndoSkipAppend := true } "")

/-- `vi-add-next` (vi.go): step the cursor right when the buffer is
non-empty, then enter insert mode. -/
def viAddNext (rl : Instance) : Instance :=
  viInsertMode (if 0 < rl.line.length then { rl with pos := rl.pos + 1 } else rl)

/-- `vi-forward-char` (vi.go): advance the cursor, bounded by `len-1`
outside insert mode and by `len` in insert mode. -/
def viForwardChar (rl : Instance) : Instance :=
  let rl := { rl with viUndoSkipAppend := true }
  if rl.main ≠ .viins ∧ rl.pos < (rl.line.length : Int) - 1 then
    { rl with pos := rl.pos + 1 }
  else if rl.main = .viins ∧ rl.pos < (rl.line.length : Int) then
    { rl with pos := rl.pos + 1 }
  else rl

/-- `vi-goto-column` (vi.go): an empty iteration string means column 0; a
negative parsed column counts from the end; otherwise the cursor is set to
the parsed column, unclamped. -/
def viGotoColumn (rl : Instance) : Instance :=
  let iterations := rl.viIteration
  let ci := getViIterations rl
  let column := if iterations = "" then 0
                else if ci.1 < 0 then (ci.2.line.length : Int) + ci.1
                else ci.1
  { ci.2 with pos := column }

/-- `vi-digit-or-beginning-of-line` (vi.go): digit `0` is a count digit when
an iteration is already accumulating, otherwise the beginning-of-line
motion. -/
def viDigitOrBeginningOfLine (rl : Instance) : Instance :=
  if 0 < rl.viIteration.length then addIteration rl "0"
  else beginningOfLine rl

/-- Index of the first space character of the buffer, if any (the scan loop
of `viFirstNonBlank`). -/
def firstSpaceIdx : List Char → Option Nat
  | [] => none
  | c :: cs => if c = ' ' then some 0 else (firstSpaceIdx cs).map (· + 1)

/-- `vi-first-non-blank` widget body (vi.go lines 900-907). -/
def viFirstNonBlank (rl : Instance) : Instance :=
  match firstSpaceIdx rl.line with
  | some i => { rl with pos := (i : Int) }
  | none => rl

/-- `vi-yank` (vi.go): phase 1 when a region is active (yank the selection,
clear it, return to command mode when invoked from visual mode); phase 2
otherwise (enter operator-pending recording `vi-yank`, anchor the mark at
the cursor, set the active-region flag). -/
def viYank (rl : Instance) : Instance :=
  if rl.activeRegion = true ∨ rl.local_ = .visual then
    let rl1 := resetSelection (yankSelection rl)
    if rl1.local_ = .visual then updateCursor (viCommandMode rl1) else rl1
  else
    let rl1 := updateCursor (enterVioppMode rl "vi-yank")
    { rl1 with mark := rl1.pos, activeRegion := true }

/-- `vi-delete` (vi.go): same two-phase protocol as `vi-yank`, with the
delete effect and pending-operator name `vi-delete`. -/
def viDelete (rl : Instance) : Instance :=
  if rl.activeRegion = true ∨ rl.local_ = .visual then
    let rl1 := resetSelection (deleteSelection rl)
    if rl1.local_ = .visual then updateCursor (viCommandMode rl1) else rl1
  else
    let rl1 := updateCursor (enterVioppMode rl "vi-delete")
    { rl1 with mark := rl1.pos, activeRegion := true }

/-- Modelled from the spec: deletes the character under the cursor, a no-op
at or past the end of the buffer (§4.4 delete over `[pos,pos+1)`, §7
no-op policy). -/
def deletex (rl : Instance) : Instance :=
  if rl.pos < 0 ∨ (rl.line.length : Int) ≤ rl.pos then rl
  else { rl with line := rl.line.take rl.pos.toNat ++ rl.line.drop (rl.pos.toNat + 1) }

/-- Modelled from the spec: inserts text at the cursor, advancing the
cursor past the inserted text (standard insertion semantics, §4.4). -/
def insertBuf (rl : Instance) (buf : List Char) : Instance :=
  { rl with line := rl.line.take rl.pos.toNat ++ buf ++ rl.line.drop rl.pos.toNat,
            pos := rl.pos + (buf.length : Int) }

/-- Writes `c` into `n` consecutive buffer cells starting at index `b`
(the in-place loop of `viReplaceChars`' selection branch). -/
def setRange : List Char → Nat → Nat → Char → List Char
  | l, _, 0, _ => l
  | l, b, n + 1, c => setRange (l.set b c) (b + 1) n c

/-- `vi-replace-chars` (vi.go): read one argument key (escape cancels);
with an active region overwrite every cell of the selection with the key
and return to command mode, otherwise replace the character under the
cursor.  `none` models the Go panic when the selection loop indexes past
the buffer. -/
def viReplaceChars (rl : Instance) (key : Option Char) : Option Instance :=
  let rl0 := updateCursor (enterVioppMode { rl with viUndoSkipAppend := true } "")
  match key with
  | none => some (updateCursor (exitVioppMode rl0))
  | some k =>
    let rl1 := updateCursor (exitVioppMode rl0)
    if rl1.activeRegion = true ∨ rl1.local_ = .visual then
      let b := (getSelection rl1).1
      let e := (getSelection rl1).2.1
      if b < 0 ∨ (rl1.line.length : Int) < e then none
      else
        some (viCommandMode { rl1 with line := setRange rl1.line b.toNat (e - b).toNat k,
                                       pos := b })
    else
      let rl2 := insertBuf (deletex rl1) [k]
      some { rl2 with pos := rl2.pos - 1 }

/-- `vi-add-surround` (vi.go): read one delimiter key (escape cancels),
then splice the buffer as `line[:b] ++ k ++ line[b:e] ++ k ++ line[e:]`
over the active selection, clearing it.  `none` models the Go panic when
the selection bounds are invalid slice bounds. -/
def viAddSurround (rl : Instance) (key : Option Char) : Option Instance :=
  let rl0 := updateCursor (enterVioppMode rl "")
  match key with
  | none => some (updateCursor (exitVioppMode rl0))
  | some k =>
    let rl1 := updateCursor (exitVioppMode rl0)
    let b := (getSelection rl1).1
    let e := (getSelection rl1).2.1
    if b < 0 ∨ e < b ∨ (rl1.line.length : Int) < e then none
    else
      let selection := k :: sliceRange rl1.line b e ++ [k]
      let rl2 := resetSelection rl1
      some { rl2 with line := rl2.line.take b.toNat ++ selection ++ rl2.line.drop e.toNat }

/-- First index `j ≥ start` of `l` satisfying `p`, if any. -/
def findIdxFrom (p : Char → Bool) (l : List Char) (start : Nat) : Option Nat :=
  ((l.drop start).findIdx? p).map (· + start)

/-- Modelled from the spec: one find-char step (§4.3): scan strictly beyond
the cursor in the given direction for the target; `skip` lands one
position short of the match; no match means no movement. -/
def findCharOnce (rl : Instance) (t : Char) (forward skip : Bool) : Instance :=
  if forward then
    match findIdxFrom (fun c => c = t) rl.line (rl.pos.toNat + 1) with
    | none => rl
    | some j => { rl with pos := if skip then (j : Int) - 1 else (j : Int) }
  else
    match ((rl.line.take rl.pos.toNat).reverse.findIdx? (fun c => c = t)) with
    | none => rl
    | some r =>
      let j : Int := rl.pos - 1 - (r : Int)
      { rl with pos := if skip then j + 1 else j }

/-- Modelled from the spec: `findAndMoveCursor` (§4.3): repeat the
find-char step the given number of times. -/
def findAndMoveCursor (rl : Instance) (t : Char) : Nat → Bool → Bool → Instance
  | 0, _, _ => rl
  | n + 1, forward, skip =>
    findAndMoveCursor (findCharOnce rl t forward skip) t n forward skip

/-- `vi-find-next-char` (vi.go): read the target key (escape cancels), then
move forward onto the next occurrence, repeated per the iteration count. -/
def viFindNextChar (rl : Instance) (key : Option Char) : Instance :=
  let rl0 := updateCursor (enterVioppMode rl "")
  match key with
  | none => updateCursor (exitVioppMode rl0)
  | some k =>
    let rl1 := updateCursor (exitVioppMode rl0)
    let ti := getViIterations rl1
    findAndMoveCursor ti.2 k ti.1.toNat true false

/-- `vi-find-next-char-skip` (vi.go): as `vi-find-next-char` but landing one
position before the match. -/
def viFindNextCharSkip (rl : Instance) (key : Option Char) : Instance :=
  let rl0 := updateCursor (enterVioppMode rl "")
  match key with
  | none => updateCursor (exitVioppMode rl0)
  | some k =>
    let rl1 := updateCursor (exitVioppMode rl0)
    let ti := getViIterations rl1
    findAndMoveCursor ti.2 k ti.1.toNat true true

/-- `vi-find-prev-char` (vi.go): backward variant of `vi-find-next-char`. -/
def viFindPrevChar (rl : Instance) (key : Option Char) : Instance :=
  let rl0 := updateCursor (enterVioppMode rl "")
  match key with
  | none => updateCursor (exitVioppMode rl0)
  | some k =>
    let rl1 := updateCursor (exitVioppMode rl0)
    let ti := getViIterations rl1
    findAndMoveCursor ti.2 k ti.1.toNat false false

/-- `vi-find-prev-char-skip` (vi.go): backward variant landing one position
after the match. -/
def viFindPrevCharSkip (rl : Instance) (key : Option Char) : Instance :=
  let rl0 := updateCursor (enterVioppMode rl "")
  match key with
  | none => updateCursor (exitVioppMode rl0)
  | some k =>
    let rl1 := updateCursor (exitVioppMode rl0)
    let ti := getViIterations rl1
    findAndMoveCursor ti.2 k ti.1.toNat false true

/-- Modelled from the spec: the word tokenizer's character classes (§4.3):
blanks, word characters, and punctuation as its own boundary class. -/
def wordClass (c : Char) : Nat :=
  if c = ' ' then 0 else if c.isAlphanum ∨ c = '_' then 1 else 2

/-- Length of the initial run of `l` satisfying `p`. -/
def skipRun (p : Char → Bool) : List Char → Nat
  | [] => 0
  | c :: cs => if p c then skipRun p cs + 1 else 0

/-- Modelled from the spec: the `W` jump (§4.3): skip the current token run,
then the following blanks, returning the signed delta to the start of the
next word; a jump that cannot reach a next word returns zero delta. -/
def viJumpW (rl : Instance) : Int :=
  let p := rl.pos.toNat
  match rl.line.drop p with
  | [] => 0
  | c :: cs =>
    let k1 := if c = ' ' then 0 else skipRun (fun x => wordClass x = wordClass c) (c :: cs)
    let k2 := skipRun (fun x => x = ' ') ((c :: cs).drop k1)
    if rl.line.length ≤ p + k1 + k2 then 0 else ((p + k1 + k2 : Nat) : Int) - rl.pos

/-- The iteration loop of `viForwardWord`: apply the `W` jump `n` times
through `moveCursorByAdjust`. -/
def applyJumpsW (rl : Instance) : Nat → Instance
  | 0 => rl
  | n + 1 => applyJumpsW (moveCursorByAdjust rl (viJumpW rl)) n

/-- The word-jump phase of `vi-forward-word` (vi.go lines 398-410): the
widget body without the final operator-pending mark adjustment. -/
def viForwardWordJumps (rl : Instance) : Instance :=
  let rl := { rl with viUndoSkipAppend := true }
  if rl.pos = 0 ∧ rl.line = [] then rl
  else
    let ti := getViIterations rl
    applyJumpsW ti.2 ti.1.toNat

/-- `vi-forward-word` (vi.go): word jumps, then, when running as the motion
argument of a deferred operator (`viopp` local mode with an active
region), step the cursor back one so the operator range excludes the next
word's first character. -/
def viForwardWord (rl : Instance) : Instance :=
  let rl := { rl with viUndoSkipAppend := true }
  if rl.pos = 0 ∧ rl.line = [] then rl
  else
    let ti := getViIterations rl
    let rl1 := applyJumpsW ti.2 ti.1.toNat
    if rl1.local_ = .viopp ∧ rl1.activeRegion = true then { rl1 with pos := rl1.pos - 1 }
    else rl1

/-- Toggles the case of a character (`unicode.IsLower`/`ToUpper`/`ToLower`
in the Go code, modelled on the ASCII range). -/
def swapCaseChar (c : Char) : Char :=
  if c.isLower then c.toUpper else c.toLower

/-- Case-toggles `n` consecutive buffer cells starting at index `b` (the
in-place loop of `viSwapCase`'s visual branch). -/
def toggleRange : List Char → Nat → Nat → List Char
  | l, _, 0 => l
  | l, b, n + 1 => toggleRange (l.set b (swapCaseChar (l.getD b ' '))) (b + 1) n

/-- `vi-swap-case` (vi.go): in visual mode toggle the case of every
character of the selection and return to command mode; otherwise toggle
the character under the cursor.  `none` models the Go panic of
`rl.line[rl.pos]` (or of the selection slice) when out of bounds. -/
def viSwapCase (rl : Instance) : Option Instance :=
  if rl.local_ = .visual then
    let posInit := rl.pos
    let b := (getSelection rl).1
    let e := (getSelection rl).2.1
    let rl1 := { resetSelection rl with pos := b }
    if b < 0 ∨ e < b ∨ (rl1.line.length : Int) < e then none
    else
      let rl2 := { rl1 with line := toggleRange rl1.line b.toNat (e - b).toNat,
                            pos := posInit }
      some (updateCursor (viCommandMode rl2))
  else
    match idxGet? rl.line rl.pos with
    | none => none
    | some c => some { rl with line := rl.line.set rl.pos.toNat (swapCaseChar c) }

/-- Modelled from the spec: membership of the bracket set `(){}[]` (§4.3). -/
def isBracket (c : Char) : Bool :=
  c = '(' ∨ c = ')' ∨ c = '{' ∨ c = '}' ∨ c = '[' ∨ c = ']'

/-- Depth-counting scan for the partner of a bracket: in the list (already
past the bracket itself), find the index of the `cl` that closes depth 0,
counting further `opn` openings. -/
def scanMatch (opn cl : Char) : List Char → Nat → Option Nat
  | [], _ => none
  | c :: cs, depth =>
    if c = cl then
      if depth = 0 then some 0 else (scanMatch opn cl cs (depth - 1)).map (· + 1)
    else if c = opn then (scanMatch opn cl cs (depth + 1)).map (· + 1)
    else (scanMatch opn cl cs depth).map (· + 1)

/-- Modelled from the spec: the bracket-matching jump (§4.3): from a bracket
under the cursor, the signed delta to its partner by standard
nesting-depth counting; zero when absent or when not on a bracket. -/
def viJumpBracket (rl : Instance) : Int :=
  match idxGet? rl.line rl.pos with
  | none => 0
  | some c =>
    if c = '(' ∨ c = '{' ∨ c = '[' then
      let cl := if c = '(' then ')' else if c = '{' then '}' else ']'
      match scanMatch c cl (rl.line.drop (rl.pos.toNat + 1)) 0 with
      | none => 0
      | some j => (j : Int) + 1
    else if c = ')' ∨ c = '}' ∨ c = ']' then
      let opn := if c = ')' then '(' else if c = '}' then '{' else '['
      match scanMatch c opn ((rl.line.take rl.pos.toNat).reverse) 0 with
      | none => 0
      | some j => -((j : Int) + 1)
    else 0

/-- `vi-match-bracket` (vi.go): if the cursor is not on a bracket, scan
forward for the nearest closing bracket and move there (or return if none
is found); then jump to the matching partner.  `none` models the Go panic
of `rl.line[rl.pos]` when the cursor is out of bounds (empty buffer). -/
def viMatchBracket (rl : Instance) : Option Instance :=
  let rl := { rl with viUndoSkipAppend := true }
  match idxGet? rl.line rl.pos with
  | none => none
  | some c =>
    if isBracket c = false then
      match findIdxFrom (fun x => x = '}' ∨ x = ')' ∨ x = ']') rl.line (rl.pos.toNat + 1) with
      | none => some rl
      | some i =>
        let rl1 := moveCursorByAdjust rl ((i : Int) - rl.pos)
        some (moveCursorByAdjust rl1 (viJumpBracket rl1))
    else
      some (moveCursorByAdjust rl (viJumpBracket rl))

/-- `vi-change-eol` (vi.go): save `line[pos-1:]` to the register, truncate
the buffer at the cursor, reset the iteration accumulator and enter
insert mode.  `none` models the Go panic of the slice `rl.line[rl.pos-1:]`
(or `rl.line[:rl.pos]`) when its bounds are invalid — in particular at
`pos = 0`, where `rl.pos - 1` is `-1`. -/
def viChangeEol (rl : Instance) : Option Instance :=
  if rl.pos - 1 < 0 ∨ (rl.line.length : Int) < rl.pos - 1 then none
  else
    let rl1 := saveBufToRegister rl (rl.line.drop (rl.pos - 1).toNat)
    if (rl1.line.length : Int) < rl1.pos then none
    else
      let rl2 := addIteration { rl1 with line := rl1.line.take rl1.pos.toNat } ""
      some (viInsertMode (resetHelpers rl2))

/-- A neutral command-mode session on an empty buffer, the base point for
concrete evaluations. -/
def st0 : Instance :=
  { line := [], pos := 0, main := .vicmd, local_ := .noLocal, visualLine := false,
    mark := -1, activeRegion := false, viIteration := "", viUndoSkipAppend := false,
    registers := [], pendingOperator := "", oppSavedLocal := .noLocal }

theorem string_ne_empty_iff_length_pos (t : String) : 0 < t.length ↔ t ≠ "" := by
  cases t with
  | mk d =>
    cases d <;> simp [String.length]
    · intro h
      exact absurd (congrArg String.data h) (by simp)

theorem firstSpaceIdx_eq_none_iff (l : List Char) : firstSpaceIdx l = none ↔ ' ' ∉ l := by
  induction l with
  | nil => simp [firstSpaceIdx]
  | cons c cs ih =>
    by_cases hc : c = ' '
    · subst hc
      simp [firstSpaceIdx]
    · have hc2 : ¬ (' ' = c) := fun h => hc h.symm
      simp [firstSpaceIdx, hc, ih, hc2]

theorem mem_of_getElem?_space (l : List Char) (k : Nat) (h : l[k]? = some ' ') :
    ' ' ∈ l := by
  induction l generalizing k with
  | nil => simp at h
  | cons c cs ih =>
    cases k with
    | zero =>
      simp at h
      simp [h]
    | succ k =>
      simp at h
      exact List.mem_cons_of_mem _ (ih k h)

theorem firstSpaceIdx_eq_some (l : List Char) (k : Nat) (h : firstSpaceIdx l = some k) :
    l[k]? = some ' ' ∧ ∀ j, j < k → l[j]? ≠ some ' ' := by
  induction l generalizing k with
  | nil => simp [firstSpaceIdx] at h
  | cons c cs ih =>
    by_cases hc : c = ' '
    · simp [firstSpaceIdx, hc] at h
      subst h
      simp [hc]
    · simp [firstSpaceIdx, hc] at h
      obtain ⟨m, hm, hk⟩ := h
      obtain ⟨h1, h2⟩ := ih m hm
      subst hk
      refine ⟨by simpa using h1, ?_⟩
      intro j hj
      cases j with
      | zero => simpa using hc
      | succ j => simpa using h2 j (by omega)

/-- C9: `vi-first-non-blank` never modifies the buffer; it moves the cursor
to the index of the first space character of the buffer when one exists,
and leaves the cursor unchanged when the buffer contains no space. -/
theorem vi_first_non_blank_first_space (s : Instance) :
    (viFirstNonBlank s).line = s.line ∧
    (' ' ∉ s.line → (viFirstNonBlank s).pos = s.pos) ∧
    (' ' ∈ s.line → ∃ k : Nat, (viFirstNonBlank s).pos = (k : Int) ∧
      s.line[k]? = some ' ' ∧ ∀ j, j < k → s.line[j]? ≠ some ' ') := by
  cases h : firstSpaceIdx s.line with
  | none =>
    refine ⟨by simp [viFirstNonBlank, h], fun _ => by simp [viFirstNonBlank, h], ?_⟩
    intro hmem
    exact absurd ((firstSpaceIdx_eq_none_iff s.line).mp h) (by simp [hmem])
  | some k =>
    obtain ⟨h1, h2⟩ := firstSpaceIdx_eq_some s.line k h
    refine ⟨by simp [viFirstNonBlank, h], ?_, ?_⟩
    · intro hnot
      exact absurd (mem_of_getElem?_space s.line k h1) hnot
    · intro _
      exact ⟨k, by simp [viFirstNonBlank, h], h1, h2⟩

theorem vi_first_non_blank_witness :
    (viFirstNonBlank { st0 with line := ['a', ' ', 'b'], pos := 2 }).line =
        ['a', ' ', 'b'] ∧
    ∃ k : Nat, (viFirstNonBlank { st0 with line := ['a', ' ', 'b'], pos := 2 }).pos = (k : Int) ∧
      (['a', ' ', 'b'])[k]? = some ' ' ∧ ∀ j, j < k → (['a', ' ', 'b'])[j]? ≠ some ' ' :=
  ⟨(vi_first_non_blank_first_space _).1,
   (vi_first_non_blank_first_space { st0 with line := ['a', ' ', 'b'], pos := 2 }).2.2
     (by decide)⟩

/-- C7: `vi-digit-or-beginning-of-line` appends the digit 0 to the iteration
string exactly when the iteration string is non-empty at invocation; on an
empty iteration string it instead moves the cursor to the beginning of the
line, leaving the iteration string empty.  The buffer is untouched either
way. -/
theorem vi_digit_or_beginning_of_line_overload (s : Instance) :
    (s.viIteration ≠ "" →
      (viDigitOrBeginningOfLine s).viIteration = s.viIteration ++ "0" ∧
      (viDigitOrBeginningOfLine s).pos = s.pos ∧
      (viDigitOrBeginningOfLine s).line = s.line) ∧
    (s.viIteration = "" →
      (viDigitOrBeginningOfLine s).pos = 0 ∧
      (viDigitOrBeginningOfLine s).viIteration = "" ∧
      (viDigitOrBeginningOfLine s).line = s.line) := by
  constructor
  · intro h
    have hlen : 0 < s.viIteration.length := (string_ne_empty_iff_length_pos _).mpr h
    simp [viDigitOrBeginningOfLine, hlen, addIteration]
  · intro h
    have hlen : ¬ 0 < s.viIteration.length := by
      simp [string_ne_empty_iff_length_pos, h]
    simp [viDigitOrBeginningOfLine, hlen, beginningOfLine, h]

theorem vi_digit_or_beginning_of_line_witness :
    (viDigitOrBeginningOfLine { st0 with viIteration := "3", pos := 4 }).viIteration =
        "3" ++ "0" ∧
    (viDigitOrBeginningOfLine { st0 with pos := 4 }).pos = 0 :=
  ⟨((vi_digit_or_beginning_of_line_overload _).1 (by decide)).1,
   ((vi_digit_or_beginning_of_line_overload { st0 with pos := 4 }).2 rfl).1⟩

/-- C8: `vi-goto-column` moves to column 0 when the iteration string is
empty, and to the parsed column value when a count was accumulated — even
an explicit count of 1 — so absence of a count and an explicit count of 1
land the cursor on different positions. -/
theorem vi_goto_column_count_absence (s : Instance) :
    (s.viIteration = "" → (viGotoColumn s).pos = 0) ∧
    (s.viIteration ≠ "" → 1 ≤ strToInt s.viIteration →
      (viGotoColumn s).pos = strToInt s.viIteration) ∧
    (viGotoColumn { s with viIteration := "" }).pos ≠
      (viGotoColumn { s with viIteration := "1" }).pos := by
  have h1 : strToInt "1" = 1 := by decide
  refine ⟨?_, ?_, ?_⟩
  · intro h
    simp [viGotoColumn, getViIterations, h]
  · intro h hge
    have hlt : ¬ strToInt s.viIteration < 1 := by omega
    simp [viGotoColumn, getViIterations, h, hlt]
    omega
  · simp [viGotoColumn, getViIterations, h1]

theorem vi_goto_column_witness :
    (viGotoColumn { st0 with line := ['a', 'b', 'c'], viIteration := "1" }).pos =
      strToInt "1" :=
  (vi_goto_column_count_absence
    { st0 with line := ['a', 'b', 'c'], viIteration := "1" }).2.1 (by decide) (by decide)

/-- C3: invoking the visual-mode widget of the variant already active exits
back to command mode with the selection collapsed (mark unset, region flag
cleared) and the buffer untouched, while invoking the other variant's
widget performs an actual mode change (to the other visual variant),
also without touching the buffer. -/
theorem visual_mode_toggle (s : Instance) (hl : s.local_ = .visual)
    (hm : s.main = .vicmd) :
    (s.visualLine = false →
      ((viVisualMode s).local_ = .noLocal ∧ (viVisualMode s).main = .vicmd ∧
       (viVisualMode s).mark = -1 ∧ (viVisualMode s).activeRegion = false ∧
       (viVisualMode s).line = s.line) ∧
      ((viVisualLineMode s).local_ = .visual ∧ (viVisualLineMode s).visualLine = true ∧
       (viVisualLineMode s).line = s.line)) ∧
    (s.visualLine = true →
      ((viVisualLineMode s).local_ = .noLocal ∧ (viVisualLineMode s).main = .vicmd ∧
       (viVisualLineMode s).mark = -1 ∧ (viVisualLineMode s).activeRegion = false ∧
       (viVisualLineMode s).line = s.line) ∧
      ((viVisualMode s).local_ = .visual ∧ (viVisualMode s).visualLine = false ∧
       (viVisualMode s).line = s.line)) := by
  constructor
  · intro hv
    constructor
    · simp [viVisualMode, enterVisualMode, addIteration, hl, hv, hm]
    · simp [viVisualLineMode, enterVisualLineMode, addIteration, hl, hv]
  · intro hv
    constructor
    · simp [viVisualLineMode, enterVisualLineMode, addIteration, hl, hv, hm]
    · simp [viVisualMode, enterVisualMode, addIteration, hl, hv]

/-- A character-wise visual-mode session on the buffer "a", anchored at 0. -/
def stVisual : Instance :=
  { st0 with line := ['a'], local_ := .visual, mark := 0, activeRegion := true }

/-- Phase 1 of the operator protocol: with a live region, `vi-yank` copies
the half-open range `[min(mark,pos), max(mark,pos)+1)` into the register
leaving the buffer unchanged, `vi-delete` removes that range from the
buffer and copies it into the register; both clear the region (mark unset,
flag false) and return to command mode exactly when the local mode was
visual. -/
def operatorDirectPhase (s : Instance) : Prop :=
  ((viYank s).line = s.line ∧
   (viYank s).registers = sliceRange s.line (min s.mark s.pos) (max s.mark s.pos + 1) ∧
   (viYank s).mark = -1 ∧ (viYank s).activeRegion = false ∧
   (s.local_ = .visual → (viYank s).main = .vicmd ∧ (viYank s).local_ = .noLocal) ∧
   (s.local_ ≠ .visual → (viYank s).local_ = s.local_ ∧ (viYank s).main = s.main)) ∧
  ((viDelete s).line =
      s.line.take (min s.mark s.pos).toNat ++ s.line.drop (max s.mark s.pos + 1).toNat ∧
   (viDelete s).registers = sliceRange s.line (min s.mark s.pos) (max s.mark s.pos + 1) ∧
   (viDelete s).mark = -1 ∧ (viDelete s).activeRegion = false ∧
   (s.local_ = .visual → (viDelete s).main = .vicmd ∧ (viDelete s).local_ = .noLocal) ∧
   (s.local_ ≠ .visual → (viDelete s).local_ = s.local_ ∧ (viDelete s).main = s.main))

/-- Phase 2 of the operator protocol: with no live region, the operator
mutates nothing, anchors `mark = pos`, raises the active-region flag, and
enters operator-pending mode recording itself as the pending operator. -/
def operatorDeferredPhase (s : Instance) : Prop :=
  ((viYank s).line = s.line ∧ (viYank s).registers = s.registers ∧
   (viYank s).pos = s.pos ∧ (viYank s).mark = s.pos ∧
   (viYank s).activeRegion = true ∧ (viYank s).local_ = .viopp ∧
   (viYank s).pendingOperator = "vi-yank") ∧
  ((viDelete s).line = s.line ∧ (viDelete s).registers = s.registers ∧
   (viDelete s).pos = s.pos ∧ (viDelete s).mark = s.pos ∧
   (viDelete s).activeRegion = true ∧ (viDelete s).local_ = .viopp ∧
   (viDelete s).pendingOperator = "vi-delete")

theorem viCommandMode_line (rl : Instance) : (viCommandMode rl).line = rl.line := by
  simp only [viCommandMode, updateCursor, refreshVimStatus]
  split <;> rfl

theorem viCommandMode_fields (rl : Instance) :
    (viCommandMode rl).main = .vicmd ∧ (viCommandMode rl).local_ = .noLocal ∧
    (viCommandMode rl).mark = -1 ∧ (viCommandMode rl).activeRegion = false ∧
    (viCommandMode rl).registers = rl.registers := by
  simp only [viCommandMode, updateCursor, refreshVimStatus]
  split <;> simp

/-- C1: the two-phase operator protocol of `vi-yank` and `vi-delete`: with
the active-region flag set or the local mode visual, the operator applies
its effect once over `[min(mark,pos), max(mark,pos)+1)`, clears the
region, and returns to command mode exactly when invoked from visual
mode; otherwise it anchors `mark = pos`, raises the flag, and enters
operator-pending mode recording itself, without mutating the buffer. -/
theorem vi_yank_delete_two_phase (s : Instance) :
    (s.activeRegion = true ∨ s.local_ = .visual → operatorDirectPhase s) ∧
    (¬(s.activeRegion = true ∨ s.local_ = .visual) → operatorDeferredPhase s) := by
  constructor
  · intro h
    unfold operatorDirectPhase
    by_cases hv : s.local_ = .visual
    · have hyEq : viYank s = updateCursor (viCommandMode (resetSelection (yankSelection s))) := by
        simp only [viYank, if_pos h]
        rw [if_pos (show (resetSelection (yankSelection s)).local_ = .visual from hv)]
      have hdEq : viDelete s = updateCursor (viCommandMode (resetSelection (deleteSelection s))) := by
        simp only [viDelete, if_pos h]
        rw [if_pos (show (resetSelection (deleteSelection s)).local_ = .visual from hv)]
      simp only [hyEq, hdEq, updateCursor]
      refine ⟨⟨?_, ?_, ?_, ?_, ?_, ?_⟩, ⟨?_, ?_, ?_, ?_, ?_, ?_⟩⟩
      · rw [viCommandMode_line]
        rfl
      · rw [(viCommandMode_fields _).2.2.2.2]
        rfl
      · exact (viCommandMode_fields _).2.2.1
      · exact (viCommandMode_fields _).2.2.2.1
      · exact fun _ => ⟨(viCommandMode_fields _).1, (viCommandMode_fields _).2.1⟩
      · exact fun hne => absurd hv hne
      · rw [viCommandMode_line]
        rfl
      · rw [(viCommandMode_fields _).2.2.2.2]
        rfl
      · exact (viCommandMode_fields _).2.2.1
      · exact (viCommandMode_fields _).2.2.2.1
      · exact fun _ => ⟨(viCommandMode_fields _).1, (viCommandMode_fields _).2.1⟩
      · exact fun hne => absurd hv hne
    · have ha : s.activeRegion = true := h.resolve_right hv
      have hyEq : viYank s = resetSelection (yankSelection s) := by
        simp only [viYank, if_pos h]
        rw [if_neg (show ¬ (resetSelection (yankSelection s)).local_ = .visual from hv)]
      have hdEq : viDelete s = resetSelection (deleteSelection s) := by
        simp only [viDelete, if_pos h]
        rw [if_neg (show ¬ (resetSelection (deleteSelection s)).local_ = .visual from hv)]
      simp only [hyEq, hdEq]
      refine ⟨⟨?_, ?_, ?_, ?_, ?_, ?_⟩, ⟨?_, ?_, ?_, ?_, ?_, ?_⟩⟩ <;>
        first
          | rfl
          | (exact fun hvv => absurd hvv hv)
          | (exact fun _ => ⟨rfl, rfl⟩)
  · intro h
    unfold operatorDeferredPhase
    constructor
    · simp only [viYank, if_neg h]
      and_intros <;> first | rfl | trivial
    · simp only [viDelete, if_neg h]
      and_intros <;> first | rfl | trivial

/-- An (implicit pending-operator) active region over "bc" inside "abcd". -/
def stRegion : Instance :=
  { st0 with line := ['a', 'b', 'c', 'd'], mark := 1, pos := 2, activeRegion := true }

theorem vi_yank_delete_two_phase_witness :
    (stRegion.activeRegion = true ∨ stRegion.local_ = .visual) ∧
    operatorDirectPhase stRegion ∧
    (¬(st0.activeRegion = true ∨ st0.local_ = .visual)) ∧
    operatorDeferredPhase st0 :=
  ⟨by decide, (vi_yank_delete_two_phase stRegion).1 (by decide),
   by decide, (vi_yank_delete_two_phase st0).2 (by decide)⟩

/-- Observational agreement on the components the cancellation contract
preserves: buffer, cursor position, main and local mode, mark,
active-region flag, and register store. -/
def agrees (t s : Instance) : Prop :=
  t.line = s.line ∧ t.pos = s.pos ∧ t.main = s.main ∧ t.local_ = s.local_ ∧
  t.mark = s.mark ∧ t.activeRegion = s.activeRegion ∧ t.registers = s.registers

/-- As `agrees`, for a widget that can (on other paths) panic. -/
def agreesOpt (o : Option Instance) (s : Instance) : Prop :=
  ∃ t, o = some t ∧ agrees t s

/-- C4: escape-cancel atomicity: every widget that reads a single argument
key in operator-pending mode (`vi-replace-chars`, `vi-add-surround`, the
four find-char widgets), when the read reports escape, exits
operator-pending mode leaving buffer, cursor, mode, mark, region flag and
register store exactly as before; a deferred `vi-delete`/`vi-yank`
followed by the dispatcher's escape cancellation likewise restores the
state from before the operator key was pressed. -/
theorem escape_cancel_atomic (s : Instance) :
    agreesOpt (viReplaceChars s none) s ∧
    agreesOpt (viAddSurround s none) s ∧
    agrees (viFindNextChar s none) s ∧
    agrees (viFindNextCharSkip s none) s ∧
    agrees (viFindPrevChar s none) s ∧
    agrees (viFindPrevCharSkip s none) s ∧
    (s.mark = -1 → s.activeRegion = false → s.local_ ≠ .visual →
      agrees (cancelPendingOperator (viDelete s)) s ∧
      agrees (cancelPendingOperator (viYank s)) s) := by
  refine ⟨⟨_, rfl, rfl, rfl, rfl, rfl, rfl, rfl, rfl⟩,
          ⟨_, rfl, rfl, rfl, rfl, rfl, rfl, rfl, rfl⟩,
          ⟨rfl, rfl, rfl, rfl, rfl, rfl, rfl⟩,
          ⟨rfl, rfl, rfl, rfl, rfl, rfl, rfl⟩,
          ⟨rfl, rfl, rfl, rfl, rfl, rfl, rfl⟩,
          ⟨rfl, rfl, rfl, rfl, rfl, rfl, rfl⟩, ?_⟩
  intro hm ha hv
  have hcond : ¬ (s.activeRegion = true ∨ s.local_ = .visual) := by
    intro hc
    rcases hc with h1 | h2
    · rw [ha] at h1
      exact Bool.false_ne_true h1
    · exact hv h2
  constructor
  · simp only [viDelete, if_neg hcond, cancelPendingOperator, enterVioppMode, updateCursor]
    exact ⟨rfl, rfl, rfl, rfl, hm.symm, ha.symm, rfl⟩
  · simp only [viYank, if_neg hcond, cancelPendingOperator, enterVioppMode, updateCursor]
    exact ⟨rfl, rfl, rfl, rfl, hm.symm, ha.symm, rfl⟩

/-- A neutral command-mode session on "ab" with the cursor on 'b'. -/
def stCancel : Instance := { st0 with line := ['a', 'b'], pos := 1 }

theorem escape_cancel_atomic_witness :
    agreesOpt (viReplaceChars stCancel none) stCancel ∧
    stCancel.mark = -1 ∧ stCancel.activeRegion = false ∧
    agrees (cancelPendingOperator (viDelete stCancel)) stCancel :=
  ⟨(escape_cancel_atomic stCancel).1, rfl, rfl,
   ((escape_cancel_atomic stCancel).2.2.2.2.2.2 rfl rfl (by decide)).1⟩

/-- C6: `vi-add-surround` with an active selection resolving to `[b,e)` and
a non-escape delimiter key `k` splices the buffer into
`L[0:b] ++ [k] ++ L[b:e] ++ [k] ++ L[e:]` — every character outside the
selection unchanged and in order — and clears the selection. -/
theorem vi_add_surround_splice (s : Instance) (k : Char)
    (_hreg : s.activeRegion = true ∨ s.local_ = .visual)
    (hm : 0 ≤ s.mark) (hp : 0 ≤ s.pos)
    (he : max s.mark s.pos + 1 ≤ (s.line.length : Int)) :
    ∃ t, viAddSurround s (some k) = some t ∧
      t.line = s.line.take (min s.mark s.pos).toNat ++ [k] ++
        sliceRange s.line (min s.mark s.pos) (max s.mark s.pos + 1) ++ [k] ++
        s.line.drop (max s.mark s.pos + 1).toNat ∧
      t.mark = -1 ∧ t.activeRegion = false := by
  have hguard : ¬ (min s.mark s.pos < 0 ∨ max s.mark s.pos + 1 < min s.mark s.pos ∨
      (s.line.length : Int) < max s.mark s.pos + 1) := by
    push_neg
    refine ⟨le_min hm hp, ?_, he⟩
    have := min_le_max (a := s.mark) (b := s.pos)
    omega
  simp only [viAddSurround, updateCursor, enterVioppMode, exitVioppMode, getSelection,
             if_neg hguard]
  refine ⟨_, rfl, ?_, rfl, rfl⟩
  simp [resetSelection, List.append_assoc]

theorem vi_add_surround_splice_witness :
    ∃ t, viAddSurround stRegion (some '*') = some t ∧
      t.line = stRegion.line.take (min stRegion.mark stRegion.pos).toNat ++ ['*'] ++
        sliceRange stRegion.line (min stRegion.mark stRegion.pos)
          (max stRegion.mark stRegion.pos + 1) ++ ['*'] ++
        stRegion.line.drop (max stRegion.mark stRegion.pos + 1).toNat ∧
      t.mark = -1 ∧ t.activeRegion = false :=
  vi_add_surround_splice stRegion '*' (by decide) (by decide) (by decide) (by decide)

/-- A command-mode session on "ab" with an accumulated count of 5 — a valid
state (`0 ≤ pos ≤ len`) on which `vi-goto-column` overruns the buffer. -/
def stOverrun : Instance := { st0 with line := ['a', 'b'], viIteration := "5" }

/-- C5 counterexample: from the valid state `stOverrun` (buffer "ab",
`pos = 0`), `vi-goto-column` with accumulated count 5 leaves
`pos = 5 > 2 = len(Buffer)`, violating the claimed invariant
`0 ≤ pos ≤ len(Buffer)`. -/
theorem vi_goto_column_overruns_buffer :
    0 ≤ stOverrun.pos ∧ stOverrun.pos ≤ (stOverrun.line.length : Int) ∧
    ¬ ((viGotoColumn stOverrun).pos ≤ (stOverrun.line.length : Int)) := by
  decide

/-- The amended bounds contract: `vi-forward-char` always preserves
`0 ≤ pos ≤ len` and, outside insert mode on a non-empty buffer starting
from `pos ≤ len-1`, it keeps `pos ≤ len-1`; `vi-add-next` preserves the
bounds when `pos < len` or the buffer is empty; `vi-goto-column` lands in
bounds when the iteration string is empty (column 0) or parses to a count
`c` with `1 ≤ c ≤ len`. -/
def cursorBoundsSpec (s : Instance) : Prop :=
  (0 ≤ (viForwardChar s).pos ∧ (viForwardChar s).pos ≤ (s.line.length : Int)) ∧
  (s.main ≠ .viins → s.line ≠ [] → s.pos ≤ (s.line.length : Int) - 1 →
    (viForwardChar s).pos ≤ (s.line.length : Int) - 1) ∧
  (s.pos < (s.line.length : Int) ∨ s.line = [] →
    0 ≤ (viAddNext s).pos ∧ (viAddNext s).pos ≤ (s.line.length : Int)) ∧
  (s.viIteration = "" → (viGotoColumn s).pos = 0) ∧
  (s.viIteration ≠ "" → 1 ≤ strToInt s.viIteration →
    strToInt s.viIteration ≤ (s.line.length : Int) →
    0 ≤ (viGotoColumn s).pos ∧ (viGotoColumn s).pos ≤ (s.line.length : Int))

/-- C5 (amended): the cursor-bounds invariant as the code actually
maintains it for `vi-forward-char`, `vi-add-next` and `vi-goto-column`. -/
theorem cursor_bounds_amended (s : Instance)
    (h0 : 0 ≤ s.pos) (hl : s.pos ≤ (s.line.length : Int)) :
    cursorBoundsSpec s := by
  refine ⟨?_, ?_, ?_, ?_, ?_⟩
  · simp only [viForwardChar]
    split_ifs with h1 h2 <;> simp_all <;> omega
  · intro hins hne hb
    simp only [viForwardChar]
    split_ifs with h1 h2 <;> simp_all <;> omega
  · intro hcase
    have hlen : s.pos < (s.line.length : Int) ∨ (s.line.length : Int) = 0 := by
      rcases hcase with h | h
      · exact Or.inl h
      · right
        simp [h]
    simp only [viAddNext, viInsertMode, updateCursor]
    split_ifs with h1 <;> (try dsimp only) <;> omega
  · intro h
    simp [viGotoColumn, getViIterations, h]
  · intro h hge hle
    have hlt : ¬ strToInt s.viIteration < 1 := by omega
    have h1 : (getViIterations s).1 = strToInt s.viIteration := by
      simp only [getViIterations]
      rw [if_neg hlt]
    simp only [viGotoColumn, h1, if_neg (show ¬ s.viIteration = "" from h)]
    rw [if_neg (show ¬ strToInt s.viIteration < 0 from by omega)]
    exact ⟨by omega, hle⟩

/-- A command-mode session on "abc" with an accumulated count of 2. -/
def stBounds : Instance := { st0 with line := ['a', 'b', 'c'], viIteration := "2" }

theorem cursor_bounds_amended_witness :
    0 ≤ stBounds.pos ∧ stBounds.pos ≤ (stBounds.line.length : Int) ∧
    cursorBoundsSpec stBounds :=
  ⟨by decide, by decide, cursor_bounds_amended stBounds (by decide) (by decide)⟩

/-- C2: the totality claim fails on the code: on the empty buffer with
`pos = 0` in command mode, `vi-swap-case` and `vi-match-bracket` evaluate
`rl.line[rl.pos]` and `vi-change-eol` the slice `rl.line[rl.pos-1:]`, all
Go out-of-bounds panics, modelled as `none`. -/
theorem widgets_panic_on_empty_buffer :
    viSwapCase st0 = none ∧ viMatchBracket st0 = none ∧ viChangeEol st0 = none := by
  decide

theorem applyJumpsW_fields (rl : Instance) (n : Nat) :
    (applyJumpsW rl n).local_ = rl.local_ ∧
    (applyJumpsW rl n).activeRegion = rl.activeRegion := by
  induction n generalizing rl with
  | zero => exact ⟨rfl, rfl⟩
  | succ n ih =>
    simp only [applyJumpsW]
    exact ih _

/-- An operator-pending session (deferred operator, active region) on the
empty buffer: `vi-forward-word` returns at its empty-buffer guard. -/
def stOppEmpty : Instance := { st0 with local_ := .viopp, activeRegion := true, mark := 0 }

/-- C10 counterexample: in operator-pending mode with the active-region
flag set but an empty buffer and `pos = 0`, `vi-forward-word` returns at
its guard and applies no final decrement, contradicting the claim that the
position reached after the word jumps is always decremented by one in that
mode combination. -/
theorem vi_forward_word_no_adjust_on_empty :
    stOppEmpty.local_ = .viopp ∧ stOppEmpty.activeRegion = true ∧
    (viForwardWord stOppEmpty).pos ≠ (viForwardWordJumps stOppEmpty).pos - 1 := by
  decide

/-- C10 (amended): except at the empty-buffer guard (`pos = 0` on an empty
buffer, where the widget returns immediately), `vi-forward-word` running
in operator-pending mode with the active-region flag set leaves the
cursor exactly one short of the position reached by its word jumps, and in
every other mode combination it equals the unadjusted jump result. -/
theorem vi_forward_word_opp_adjust (s : Instance)
    (hg : ¬ (s.pos = 0 ∧ s.line = [])) :
    (s.local_ = .viopp → s.activeRegion = true →
      (viForwardWord s).pos = (viForwardWordJumps s).pos - 1) ∧
    (¬ (s.local_ = .viopp ∧ s.activeRegion = true) →
      viForwardWord s = viForwardWordJumps s) := by
  have hfields := applyJumpsW_fields
    ((getViIterations { s with viUndoSkipAppend := true }).2)
    ((getViIterations { s with viUndoSkipAppend := true }).1.toNat)
  constructor
  · intro hl ha
    simp only [viForwardWord, viForwardWordJumps, if_neg hg]
    rw [if_pos ⟨hfields.1.trans hl, hfields.2.trans ha⟩]
  · intro hn
    simp only [viForwardWord, viForwardWordJumps, if_neg hg]
    rw [if_neg (fun hc => hn ⟨hfields.1.symm.trans hc.1, hfields.2.symm.trans hc.2⟩)]

/-- An operator-pending session with active region over "ab cd". -/
def stOppWords : Instance :=
  { st0 with line := ['a', 'b', ' ', 'c', 'd'], local_ := .viopp,
             activeRegion := true, mark := 0 }

theorem vi_forward_word_opp_adjust_witness :
    ¬ (stOppWords.pos = 0 ∧ stOppWords.line = []) ∧
    (viForwardWord stOppWords).pos = (viForwardWordJumps stOppWords).pos - 1 :=
  ⟨by decide,
   (vi_forward_word_opp_adjust stOppWords (by decide)).1 rfl rfl⟩

theorem visual_mode_toggle_witness :
    ((viVisualMode stVisual).local_ = .noLocal ∧ (viVisualMode stVisual).main = .vicmd ∧
     (viVisualMode stVisual).mark = -1 ∧ (viVisualMode stVisual).activeRegion = false ∧
     (viVisualMode stVisual).line = stVisual.line) ∧
    ((viVisualLineMode stVisual).local_ = .visual ∧
     (viVisualLineMode stVisual).visualLine = true ∧
     (viVisualLineMode stVisual).line = stVisual.line) :=
  (visual_mode_toggle stVisual rfl rfl).1 rfl
